import Mathlib

/-!
Verification of `main_coronaSEIR.py`, a SEIR epidemic simulation with
derived observable series (detected cases, ICU load, deaths).

Conventions of the embedding:
* Python floats are embedded as exact rationals (`ℚ`); the analytic
  scalars `s1` and `doublingTime`, which use `sqrt` and `log`, live in `ℝ`.
* Numeric state vectors `(S, E, I, R)` are embedded as `ℚ × ℚ × ℚ × ℚ`.
* `numpy` arrays are embedded as `List ℚ`; reading `V[i]` is `V.getD i 0`.
* Assigning a float into the integer array `D = np.arange(daysTotal)`
  truncates toward zero; this is `ratTrunc` below.
* `round` in Python rounds half to even; this is `pyRound` below.
-/

namespace CoronaSEIR

/-- Source line 22: `florida_population = 21_992_985`. -/
def florida_population : ℚ := 21992985

/-- Source line 24: `daysTotal = 365`. -/
def daysTotal : ℕ := 365

/-- Source line 27: `E0 = 1`, exposed people at the initial time step. -/
def E0 : ℚ := 1

/-- Source line 32: `intensive_units = 5_604`. -/
def intensive_units : ℚ := 5604

/-- Source line 36: `r0 = 3.0`. -/
def r0 : ℚ := 3

/-- Source line 37: `r1 = 1.0`. -/
def r1 : ℚ := 1

/-- Source line 40: days between 2020-02-01 and 2020-04-01 (leap year): 29 + 31 = 60. -/
def days_before_lockdown : ℚ := 60

/-- Source line 46: `days_presymptomatic = 2.5`. -/
def days_presymptomatic : ℚ := 5 / 2

/-- Source line 47: `days_to_incubation = 5.2`. -/
def days_to_incubation : ℚ := 26 / 5

/-- Source line 50: `sigma = 1.0 / (days_to_incubation - days_presymptomatic)`. -/
def sigma : ℚ := 1 / (days_to_incubation - days_presymptomatic)

/-- Source line 53: `generation_time = 4.6`. -/
def generation_time : ℚ := 23 / 5

/-- Source line 57: `gamma = 1.0 / (2.0 * (generation_time - 1.0 / sigma))`. -/
def gamma : ℚ := 1 / (2 * (generation_time - 1 / sigma))

/-- Source line 59: `percent_asymptomatic = 0.35`. -/
def percent_asymptomatic : ℚ := 35 / 100

/-- Source line 61: `percent_cases_detected = (1.0 - percent_asymptomatic) / 20.0`. -/
def percent_cases_detected : ℚ := (1 - percent_asymptomatic) / 20

/-- Source line 63: `timeInHospital = 12`. -/
def timeInHospital : ℚ := 12

/-- Source line 64: `timeInfected = 1.0 / gamma`. -/
def timeInfected : ℚ := 1 / gamma

/-- Source line 68: `communicationLag = 2`. -/
def communicationLag : ℚ := 2

/-- Source line 69: `testLag = 3`. -/
def testLag : ℚ := 3

/-- Source line 70: `symptomToHospitalLag = 5`. -/
def symptomToHospitalLag : ℚ := 5

/-- Source line 71: `hospitalToIcuLag = 5`. -/
def hospitalToIcuLag : ℚ := 5

/-- Source line 73: `infectionFatalityRateA = 0.01`. -/
def infectionFatalityRateA : ℚ := 1 / 100

/-- Source line 74: `infectionFatalityRateB = infectionFatalityRateA * 3.0`. -/
def infectionFatalityRateB : ℚ := infectionFatalityRateA * 3

/-- Source line 75: `icuRate = infectionFatalityRateA * 2`. -/
def icuRate : ℚ := infectionFatalityRateA * 2

/-- Source line 77: `beta0 = r0 * gamma`. -/
def beta0 : ℚ := r0 * gamma

/-- Source line 78: `beta1 = r1 * gamma`. -/
def beta1 : ℚ := r1 * gamma

/-- Source lines 80-81: `s1 = 0.5 * (-(sigma + gamma) + math.sqrt((sigma + gamma) ** 2
+ 4 * sigma * gamma * (r0 - 1)))`.  Lives in `ℝ` because of the square root. -/
noncomputable def s1 : ℝ :=
  (1 / 2) * (-((sigma : ℝ) + (gamma : ℝ)) +
    Real.sqrt (((sigma : ℝ) + (gamma : ℝ)) ^ 2 + 4 * (sigma : ℝ) * (gamma : ℝ) * ((r0 : ℝ) - 1)))

/-- Source line 82: `doublingTime = math.log(2.0, math.e) / s1`. -/
noncomputable def doublingTime : ℝ := Real.log 2 / s1

/-- Source lines 85-100: the SEIR derivative function.  The Python code
destructures `S, E, I, R = Y` (R is not used in any derivative), picks
`beta = beta0 if x < days0 else beta1`, and returns
`(dS, dE, dI, dR)`.  Stated over any linear ordered field so that it can be
instantiated both at `ℚ` (executable) and at `ℝ` (calculus). -/
def model {K : Type} [LinearOrderedField K] (Y : K × K × K × K)
    (x N beta0v days0 beta1v gammav sigmav : K) : K × K × K × K :=
  let S := Y.1
  let E := Y.2.1
  let I := Y.2.2.1
  let beta := if x < days0 then beta0v else beta1v
  (- beta * S * I / N,
   beta * S * I / N - sigmav * E,
   sigmav * E - gammav * I,
   gammav * I)

/-- Modelled from the spec: `scipy.integrate.odeint` (called at source line 107)
is an external numerical solver, not code of this repository.  The spec's
Integrator contract says it "produces a Trajectory of that length by
numerically solving the ODE system over the grid", one state per grid point,
starting from the given initial state.  `odeintGo` is its stepping loop,
embedded as a fixed-step one-step method: it emits the current state at the
current grid point and advances by the grid interval. -/
def odeintGo (f : ℚ × ℚ × ℚ × ℚ → ℚ → ℚ × ℚ × ℚ × ℚ) :
    ℚ × ℚ × ℚ × ℚ → ℚ → List ℚ → List (ℚ × ℚ × ℚ × ℚ)
  | y, _, [] => [y]
  | y, t, t2 :: ts => y :: odeintGo f (y + (t2 - t) • f y t) t2 ts

/-- Modelled from the spec: the entry point of the external solver.  Row 0 of
the output is the initial state `y0` and the output has one row per grid
point, matching the documented behaviour of `scipy.integrate.odeint`. -/
def odeint (f : ℚ × ℚ × ℚ × ℚ → ℚ → ℚ × ℚ × ℚ × ℚ) (y0 : ℚ × ℚ × ℚ × ℚ)
    (ts : List ℚ) : List (ℚ × ℚ × ℚ × ℚ) :=
  match ts with
  | [] => []
  | t :: rest => odeintGo f y0 t rest

/-- Source line 104: `X = np.arange(daysTotal)`, the uniform day grid. -/
def grid (n : ℕ) : List ℚ := List.map (fun i : ℕ => (i : ℚ)) (List.range n)

/-- The state rows produced inside `solve` (source lines 103-109): the solver
output before transposition into the four component arrays.  `n` is the
module-level constant `daysTotal` (source line 24), passed explicitly. -/
def solveStates (n : ℕ)
    (modelf : ℚ × ℚ × ℚ × ℚ → ℚ → ℚ → ℚ → ℚ → ℚ → ℚ → ℚ → ℚ × ℚ × ℚ × ℚ)
    (population E0v beta0v days0 beta1v gammav sigmav : ℚ) : List (ℚ × ℚ × ℚ × ℚ) :=
  odeint (fun y x => modelf y x population beta0v days0 beta1v gammav sigmav)
    (population - E0v, E0v, 0, 0) (grid n)

/-- Source lines 103-110: `solve` builds the grid, the initial state
`(population − E0, E0, 0, 0)`, runs the solver, and returns the grid together
with the transposed component arrays `S, E, I, R`. -/
def solve (n : ℕ)
    (modelf : ℚ × ℚ × ℚ × ℚ → ℚ → ℚ → ℚ → ℚ → ℚ → ℚ → ℚ → ℚ × ℚ × ℚ × ℚ)
    (population E0v beta0v days0 beta1v gammav sigmav : ℚ) :
    List ℚ × List ℚ × List ℚ × List ℚ × List ℚ :=
  let Y := solveStates n modelf population E0v beta0v days0 beta1v gammav sigmav
  (grid n, Y.map (fun y => y.1), Y.map (fun y => y.2.1),
    Y.map (fun y => y.2.2.1), Y.map (fun y => y.2.2.2))

/-- The four components returned by `model` always sum to zero. -/
theorem model_sum_eq_zero {K : Type} [LinearOrderedField K] (Y : K × K × K × K)
    (x N b0 d0 b1 g s : K) :
    (model Y x N b0 d0 b1 g s).1 + (model Y x N b0 d0 b1 g s).2.1 +
      (model Y x N b0 d0 b1 g s).2.2.1 + (model Y x N b0 d0 b1 g s).2.2.2 = 0 := by
  simp only [model]
  ring

/-- C2: `model` returns exactly the SEIR derivative
`(−β(x)·S·I/N, β(x)·S·I/N − σ·E, σ·E − γ·I, γ·I)` where `β(x) = β0` when
`x < days0` and `β1` otherwise; in particular at `x = days0` exactly, the
post-switch rate `β1` is used. -/
theorem model_matches_spec :
    (∀ (S E I R x N b0 d0 b1 g s : ℚ),
        model (S, E, I, R) x N b0 d0 b1 g s =
          (- (if x < d0 then b0 else b1) * S * I / N,
           (if x < d0 then b0 else b1) * S * I / N - s * E,
           s * E - g * I,
           g * I)) ∧
    (∀ (S E I R N b0 d0 b1 g s : ℚ),
        model (S, E, I, R) d0 N b0 d0 b1 g s =
          (- b1 * S * I / N, b1 * S * I / N - s * E, s * E - g * I, g * I)) := by
  constructor
  · intro S E I R x N b0 d0 b1 g s
    simp only [model]
  · intro S E I R N b0 d0 b1 g s
    simp only [model, lt_irrefl, if_false]

/-- The stepping loop produces one state per remaining grid point, plus the
initial one. -/
theorem odeintGo_length (f : ℚ × ℚ × ℚ × ℚ → ℚ → ℚ × ℚ × ℚ × ℚ) :
    ∀ (ts : List ℚ) (y : ℚ × ℚ × ℚ × ℚ) (t : ℚ),
      (odeintGo f y t ts).length = ts.length + 1 := by
  intro ts
  induction ts with
  | nil => intro y t; rfl
  | cons t2 ts ih =>
      intro y t
      simp only [odeintGo, List.length_cons, ih]

/-- The stepping loop starts with the initial state. -/
theorem odeintGo_getD_zero (f : ℚ × ℚ × ℚ × ℚ → ℚ → ℚ × ℚ × ℚ × ℚ)
    (ts : List ℚ) (y : ℚ × ℚ × ℚ × ℚ) (t : ℚ) :
    (odeintGo f y t ts).getD 0 (0, 0, 0, 0) = y := by
  cases ts <;> rfl

/-- On a nonempty grid, the solver output has one row per grid point. -/
theorem odeint_length (f : ℚ × ℚ × ℚ × ℚ → ℚ → ℚ × ℚ × ℚ × ℚ)
    (y0 : ℚ × ℚ × ℚ × ℚ) (ts : List ℚ) (h : ts ≠ []) :
    (odeint f y0 ts).length = ts.length := by
  cases ts with
  | nil => exact absurd rfl h
  | cons t rest => simp [odeint, odeintGo_length]

/-- If the vector field's components always sum to zero, the stepping loop
conserves the component sum of the state. -/
theorem odeintGo_sum_invariant (f : ℚ × ℚ × ℚ × ℚ → ℚ → ℚ × ℚ × ℚ × ℚ)
    (hf : ∀ y t, (f y t).1 + (f y t).2.1 + (f y t).2.2.1 + (f y t).2.2.2 = 0) :
    ∀ (ts : List ℚ) (y0 : ℚ × ℚ × ℚ × ℚ) (t : ℚ) (y : ℚ × ℚ × ℚ × ℚ),
      y ∈ odeintGo f y0 t ts →
      y.1 + y.2.1 + y.2.2.1 + y.2.2.2 = y0.1 + y0.2.1 + y0.2.2.1 + y0.2.2.2 := by
  intro ts
  induction ts with
  | nil =>
      intro y0 t y hy
      simp only [odeintGo, List.mem_singleton] at hy
      rw [hy]
  | cons t2 ts ih =>
      intro y0 t y hy
      simp only [odeintGo, List.mem_cons] at hy
      rcases hy with hy | hy
      · rw [hy]
      · have h2 := ih (y0 + (t2 - t) • f y0 t) t2 y hy
        have hz := hf y0 t
        simp only [Prod.fst_add, Prod.snd_add, Prod.smul_fst, Prod.smul_snd,
          smul_eq_mul] at h2
        rw [h2]
        ring_nf
        linear_combination (t2 - t) * hz

/-- C3: population conservation.  First conjunct: the four derivative
components of `model` sum to exactly zero for every input.  Second conjunct:
any exact solution of the continuous system keeps `S+E+I+R` constant, equal to
its initial value.  Third conjunct: every state row produced by the solver
run started from `(pop − E0, E0, 0, 0)` has component sum exactly `pop`, in
particular within relative error `1e-4` of `pop`. -/
theorem model_conserves_population :
    (∀ (Y : ℚ × ℚ × ℚ × ℚ) (x N b0 d0 b1 g s : ℚ),
        (model Y x N b0 d0 b1 g s).1 + (model Y x N b0 d0 b1 g s).2.1 +
          (model Y x N b0 d0 b1 g s).2.2.1 + (model Y x N b0 d0 b1 g s).2.2.2 = 0) ∧
    (∀ (S E I R : ℝ → ℝ) (N b0 d0 b1 g s : ℝ),
        (∀ t, HasDerivAt S ((model (S t, E t, I t, R t) t N b0 d0 b1 g s).1) t) →
        (∀ t, HasDerivAt E ((model (S t, E t, I t, R t) t N b0 d0 b1 g s).2.1) t) →
        (∀ t, HasDerivAt I ((model (S t, E t, I t, R t) t N b0 d0 b1 g s).2.2.1) t) →
        (∀ t, HasDerivAt R ((model (S t, E t, I t, R t) t N b0 d0 b1 g s).2.2.2) t) →
        ∀ t, S t + E t + I t + R t = S 0 + E 0 + I 0 + R 0) ∧
    (∀ (n : ℕ) (pop e0 b0 d0 b1 g s : ℚ) (y : ℚ × ℚ × ℚ × ℚ),
        y ∈ solveStates n model pop e0 b0 d0 b1 g s →
        y.1 + y.2.1 + y.2.2.1 + y.2.2.2 = pop ∧
        (0 ≤ pop → |y.1 + y.2.1 + y.2.2.1 + y.2.2.2 - pop| ≤ pop * (1 / 10000))) := by
  refine ⟨fun Y x N b0 d0 b1 g s => model_sum_eq_zero Y x N b0 d0 b1 g s, ?_, ?_⟩
  · intro S E I R N b0 d0 b1 g s hS hE hI hR t
    have hsum : ∀ u, HasDerivAt (fun v => S v + E v + I v + R v) 0 u := by
      intro u
      have h := (((hS u).add (hE u)).add (hI u)).add (hR u)
      have hz := model_sum_eq_zero (K := ℝ) (S u, E u, I u, R u) u N b0 d0 b1 g s
      rw [hz] at h
      exact h
    have hdiff : Differentiable ℝ (fun v => S v + E v + I v + R v) :=
      fun u => (hsum u).differentiableAt
    exact is_const_of_deriv_eq_zero hdiff (fun u => (hsum u).deriv) t 0
  · intro n pop e0 b0 d0 b1 g s y hy
    have hf : ∀ (z : ℚ × ℚ × ℚ × ℚ) (t : ℚ),
        (model z t pop b0 d0 b1 g s).1 + (model z t pop b0 d0 b1 g s).2.1 +
          (model z t pop b0 d0 b1 g s).2.2.1 + (model z t pop b0 d0 b1 g s).2.2.2 = 0 :=
      fun z t => model_sum_eq_zero z t pop b0 d0 b1 g s
    have hsum : y.1 + y.2.1 + y.2.2.1 + y.2.2.2 = pop := by
      unfold solveStates odeint at hy
      rcases hgrid : grid n with _ | ⟨t, rest⟩
      · rw [hgrid] at hy; exact absurd hy (List.not_mem_nil y)
      · rw [hgrid] at hy
        have h := odeintGo_sum_invariant _ hf rest (pop - e0, e0, 0, 0) t y hy
        rw [h]; ring
    refine ⟨hsum, fun hpop => ?_⟩
    rw [hsum]
    simp only [sub_self, abs_zero]
    exact mul_nonneg hpop (by norm_num)

/-- Witness for C3: conjuncts two and three applied at concrete inputs (the
all-zero solution of the continuous system; a one-day solver run with
population 2 and one initially exposed person). -/
theorem model_conserves_population_witness :
    ((fun _ : ℝ => (0 : ℝ)) 7 + (fun _ : ℝ => (0 : ℝ)) 7 + (fun _ : ℝ => (0 : ℝ)) 7 +
        (fun _ : ℝ => (0 : ℝ)) 7 =
      (fun _ : ℝ => (0 : ℝ)) 0 + (fun _ : ℝ => (0 : ℝ)) 0 + (fun _ : ℝ => (0 : ℝ)) 0 +
        (fun _ : ℝ => (0 : ℝ)) 0) ∧
    (((1 : ℚ), (1 : ℚ), (0 : ℚ), (0 : ℚ)).1 + ((1 : ℚ), (1 : ℚ), (0 : ℚ), (0 : ℚ)).2.1 +
        ((1 : ℚ), (1 : ℚ), (0 : ℚ), (0 : ℚ)).2.2.1 +
        ((1 : ℚ), (1 : ℚ), (0 : ℚ), (0 : ℚ)).2.2.2 = 2 ∧
      (0 ≤ (2 : ℚ) →
        |((1 : ℚ), (1 : ℚ), (0 : ℚ), (0 : ℚ)).1 + ((1 : ℚ), (1 : ℚ), (0 : ℚ), (0 : ℚ)).2.1 +
            ((1 : ℚ), (1 : ℚ), (0 : ℚ), (0 : ℚ)).2.2.1 +
            ((1 : ℚ), (1 : ℚ), (0 : ℚ), (0 : ℚ)).2.2.2 - 2| ≤ 2 * (1 / 10000))) :=
  ⟨model_conserves_population.2.1 (fun _ => 0) (fun _ => 0) (fun _ => 0) (fun _ => 0)
      1 2 3 4 5 6
      (fun t => by simpa [model] using hasDerivAt_const t (0 : ℝ))
      (fun t => by simpa [model] using hasDerivAt_const t (0 : ℝ))
      (fun t => by simpa [model] using hasDerivAt_const t (0 : ℝ))
      (fun t => by simpa [model] using hasDerivAt_const t (0 : ℝ)) 7,
   model_conserves_population.2.2 1 2 1 0 0 0 0 0 (1, 1, 0, 0)
    (by
      have h : solveStates 1 model 2 1 0 0 0 0 0 = [(1, 1, 0, 0)] := by
        norm_num [solveStates, odeint, grid, odeintGo, List.range_succ, List.range_zero]
      rw [h]
      exact List.mem_singleton.mpr rfl)⟩

/-- C5: for every population, initial exposed count and `daysTotal ≥ 1`,
`solve` runs over the uniform day grid `0, 1, ..., daysTotal − 1` from the
initial state `(N − E0, E0, 0, 0)` and returns four aligned component
sequences, each of length exactly `daysTotal`, whose first entries are the
initial state. -/
theorem solve_shape (n : ℕ) (pop e0 b0 d0 b1 g s : ℚ) (hn : 1 ≤ n) :
    (solve n model pop e0 b0 d0 b1 g s).1 = List.map (fun i : ℕ => (i : ℚ)) (List.range n) ∧
    (solve n model pop e0 b0 d0 b1 g s).2.1.length = n ∧
    (solve n model pop e0 b0 d0 b1 g s).2.2.1.length = n ∧
    (solve n model pop e0 b0 d0 b1 g s).2.2.2.1.length = n ∧
    (solve n model pop e0 b0 d0 b1 g s).2.2.2.2.length = n ∧
    (solve n model pop e0 b0 d0 b1 g s).2.1.getD 0 0 = pop - e0 ∧
    (solve n model pop e0 b0 d0 b1 g s).2.2.1.getD 0 0 = e0 ∧
    (solve n model pop e0 b0 d0 b1 g s).2.2.2.1.getD 0 0 = 0 ∧
    (solve n model pop e0 b0 d0 b1 g s).2.2.2.2.getD 0 0 = 0 := by
  have hgridlen : (grid n).length = n := by
    simp only [grid, List.length_map, List.length_range]
  have hne : grid n ≠ [] := by
    intro hc
    rw [hc] at hgridlen
    simp only [List.length_nil] at hgridlen
    omega
  have hlen : (solveStates n model pop e0 b0 d0 b1 g s).length = n := by
    unfold solveStates
    rw [odeint_length _ _ _ hne, hgridlen]
  have hhead : (solveStates n model pop e0 b0 d0 b1 g s).getD 0 (0, 0, 0, 0) =
      (pop - e0, e0, 0, 0) := by
    unfold solveStates odeint
    rcases hgrid : grid n with _ | ⟨t, rest⟩
    · exact absurd hgrid hne
    · exact odeintGo_getD_zero _ rest _ t
  rcases hst : solveStates n model pop e0 b0 d0 b1 g s with _ | ⟨y, ys⟩
  · rw [hst] at hlen
    simp only [List.length_nil] at hlen
    omega
  · rw [hst] at hhead hlen
    have hy : y = (pop - e0, e0, 0, 0) := by simpa using hhead
    refine ⟨rfl, ?_, ?_, ?_, ?_, ?_, ?_, ?_, ?_⟩
    · show ((solveStates n model pop e0 b0 d0 b1 g s).map (fun y => y.1)).length = n
      rw [hst]; simpa using hlen
    · show ((solveStates n model pop e0 b0 d0 b1 g s).map (fun y => y.2.1)).length = n
      rw [hst]; simpa using hlen
    · show ((solveStates n model pop e0 b0 d0 b1 g s).map (fun y => y.2.2.1)).length = n
      rw [hst]; simpa using hlen
    · show ((solveStates n model pop e0 b0 d0 b1 g s).map (fun y => y.2.2.2)).length = n
      rw [hst]; simpa using hlen
    · show ((solveStates n model pop e0 b0 d0 b1 g s).map (fun y => y.1)).getD 0 0 = pop - e0
      rw [hst, hy]; rfl
    · show ((solveStates n model pop e0 b0 d0 b1 g s).map (fun y => y.2.1)).getD 0 0 = e0
      rw [hst, hy]; rfl
    · show ((solveStates n model pop e0 b0 d0 b1 g s).map (fun y => y.2.2.1)).getD 0 0 = 0
      rw [hst, hy]; rfl
    · show ((solveStates n model pop e0 b0 d0 b1 g s).map (fun y => y.2.2.2)).getD 0 0 = 0
      rw [hst, hy]; rfl

/-- Witness for C5: `solve` applied over two days with population 10 and one
initially exposed person. -/
theorem solve_shape_witness :
    (solve 2 model 10 1 0 0 0 0 0).1 = List.map (fun i : ℕ => (i : ℚ)) (List.range 2) ∧
    (solve 2 model 10 1 0 0 0 0 0).2.1.length = 2 ∧
    (solve 2 model 10 1 0 0 0 0 0).2.2.1.length = 2 ∧
    (solve 2 model 10 1 0 0 0 0 0).2.2.2.1.length = 2 ∧
    (solve 2 model 10 1 0 0 0 0 0).2.2.2.2.length = 2 ∧
    (solve 2 model 10 1 0 0 0 0 0).2.1.getD 0 0 = 10 - 1 ∧
    (solve 2 model 10 1 0 0 0 0 0).2.2.1.getD 0 0 = 1 ∧
    (solve 2 model 10 1 0 0 0 0 0).2.2.2.1.getD 0 0 = 0 ∧
    (solve 2 model 10 1 0 0 0 0 0).2.2.2.2.getD 0 0 = 0 :=
  solve_shape 2 10 1 0 0 0 0 0 (by norm_num)

/-- Truncation toward zero, the effect of assigning a float into the integer
array `D = np.arange(daysTotal)` (source lines 133 and 138). -/
def ratTrunc (q : ℚ) : ℤ := if 0 ≤ q then ⌊q⌋ else ⌈q⌉

/-- Python's built-in `round`: round half to even (used at source lines 67
and 126). -/
def pyRound (q : ℚ) : ℤ :=
  if q - ⌊q⌋ < 1 / 2 then ⌊q⌋
  else if 1 / 2 < q - ⌊q⌋ then ⌊q⌋ + 1
  else if Even ⌊q⌋ then ⌊q⌋ else ⌊q⌋ + 1

/-- Modelled from the spec: sampling a series at an integer index, "using zero
(or boundary-clamped) values for indices before the start of the original
sequence" (the DelayOperator contract, section 4.3); indices past the end also
read as zero.  Part of the embedding of `shared.delay`, whose source
(`shared.py`) is not in the repository snapshot. -/
def sampleZ (V : List ℚ) (j : ℤ) : ℚ :=
  if 0 ≤ j then V.getD j.toNat 0 else 0

/-- Modelled from the spec: linear interpolation of a series at a (possibly
fractional) index, per the DelayOperator contract: "Fractional delay must use
linear interpolation between adjacent integer indices".  Part of the embedding
of `shared.delay`. -/
def interp (V : List ℚ) (x : ℚ) : ℚ :=
  (1 - (x - ⌊x⌋)) * sampleZ V ⌊x⌋ + (x - ⌊x⌋) * sampleZ V (⌊x⌋ + 1)

/-- Modelled from the spec: `shared.delay` (`shared.py` is not in the
repository snapshot).  Per the DelayOperator contract (section 4.3), it maps a
sequence `V` of length `n` to the sequence of the same length with
`delay V d [i] =` interpolated value of `V` at index `i − d`. -/
def delay (V : List ℚ) (d : ℚ) : List ℚ :=
  List.map (fun i : ℕ => interp V ((i : ℚ) - d)) (List.range V.length)

/-- Source line 118: `F = I * percent_cases_detected`, the undelayed detected
fraction of the infectious series. -/
def F0 (I : List ℚ) : List ℚ := I.map (fun v => v * percent_cases_detected)

/-- Source line 119: `U = I * icuRate * timeInHospital / timeInfected`, the
undelayed ICU series. -/
def U0 (I : List ℚ) : List ℚ :=
  I.map (fun v => v * icuRate * timeInHospital / timeInfected)

/-- Source lines 123-124: the detected-cases series, the delayed `F`. -/
def Fseries (I : List ℚ) : List ℚ :=
  delay (F0 I) (days_presymptomatic + symptomToHospitalLag + testLag + communicationLag)

/-- Source lines 125-127: the ICU-load series, the `U` series delayed twice,
the second time by the heuristic correction amount
`round((timeInHospital / timeInfected - 1) * timeInfected)`. -/
def Useries (I : List ℚ) : List ℚ :=
  delay (delay (U0 I) (days_presymptomatic + symptomToHospitalLag + hospitalToIcuLag))
    ((pyRound ((timeInHospital / timeInfected - 1) * timeInfected) : ℚ))

/-- Source line 130: `FC = np.cumsum(F)`, the running sum of the detected
series; `cumsumGo acc V` is `np.cumsum` with accumulator `acc`. -/
def cumsumGo (acc : ℚ) : List ℚ → List ℚ
  | [] => []
  | v :: vs => (acc + v) :: cumsumGo (acc + v) vs

/-- Source line 130: `FC = np.cumsum(F)`. -/
def cumsum (V : List ℚ) : List ℚ := cumsumGo 0 V

/-- Source line 130 applied to the pipeline: `FC = np.cumsum(F)` where `F` is
the delayed detected series. -/
def FCseries (I : List ℚ) : List ℚ := cumsum (Fseries I)

/-- Source lines 133-140: the deaths accumulation loop.  `i` is the loop
index, `rPrev`/`dPrev` are the `RPrev`/`DPrev` accumulators (both start at 0).
Each day picks the fatality rate by comparing `U[i]` with the ICU capacity,
and stores `DPrev + IFR * (R[i] - RPrev)` into the integer array `D`
(created as `np.arange(daysTotal)`, dtype int), truncating toward zero. -/
def deathsGo (cap : ℚ) (U : List ℚ) : ℕ → ℚ → ℤ → List ℚ → List ℤ
  | _, _, _, [] => []
  | i, rPrev, dPrev, r :: rs =>
    let ifr := if U.getD i 0 ≤ cap then infectionFatalityRateA else infectionFatalityRateB
    let d := ratTrunc ((dPrev : ℚ) + ifr * (r - rPrev))
    d :: deathsGo cap U (i + 1) r d rs

/-- Source lines 133-140: the deaths loop started with `RPrev = 0`,
`DPrev = 0` at day 0. -/
def deathsLoop (cap : ℚ) (U R : List ℚ) : List ℤ := deathsGo cap U 0 0 0 R

/-- Source lines 133-143: the full deaths pipeline: run the loop against the
(delayed) ICU series computed from `I`, then delay the result by
`-timeInfected + days_presymptomatic + symptomToHospitalLag + timeInHospital
+ communicationLag` days. -/
def Dseries (I R : List ℚ) : List ℚ :=
  delay ((deathsLoop intensive_units (Useries I) R).map (fun z => (z : ℚ)))
    (- timeInfected + days_presymptomatic + symptomToHospitalLag + timeInHospital +
      communicationLag)

/-- `delay` preserves the length of the series. -/
theorem delay_length (V : List ℚ) (d : ℚ) : (delay V d).length = V.length := by
  simp [delay]

/-- The running-sum loop preserves the length of the series. -/
theorem cumsumGo_length : ∀ (V : List ℚ) (acc : ℚ), (cumsumGo acc V).length = V.length
  | [], _ => rfl
  | v :: vs, acc => by simp only [cumsumGo, List.length_cons, cumsumGo_length vs]

/-- Entry `i` of the running-sum loop is the accumulator plus the sum of the
first `i + 1` entries. -/
theorem cumsumGo_getD : ∀ (V : List ℚ) (acc : ℚ) (i : ℕ), i < V.length →
    (cumsumGo acc V).getD i 0 = acc + (V.take (i + 1)).sum := by
  intro V
  induction V with
  | nil => intro acc i hi; simp at hi
  | cons v vs ih =>
      intro acc i hi
      cases i with
      | zero => simp [cumsumGo]
      | succ i =>
          have hi2 : i < vs.length := by simpa using hi
          simp only [cumsumGo, List.getD_cons_succ, ih (acc + v) i hi2, List.take_succ_cons,
            List.sum_cons]
          ring

/-- Entry `i` of `cumsum V` is the sum of the first `i + 1` entries of `V`. -/
theorem cumsum_getD (V : List ℚ) (i : ℕ) (hi : i < V.length) :
    (cumsum V).getD i 0 = (V.take (i + 1)).sum := by
  simpa [cumsum] using cumsumGo_getD V 0 i hi

/-- Partial sums of a series of non-negative entries are monotone in the
prefix length. -/
theorem take_sum_mono (V : List ℚ) (h : ∀ v ∈ V, 0 ≤ v) {i j : ℕ} (hij : i ≤ j) :
    (V.take i).sum ≤ (V.take j).sum := by
  have hsplit : V.take j = V.take i ++ (V.drop i).take (j - i) := by
    have h2 : i + (j - i) = j := by omega
    rw [← h2, List.take_add, Nat.add_sub_cancel_left]
  rw [hsplit, List.sum_append]
  have hnn : 0 ≤ ((V.drop i).take (j - i)).sum :=
    List.sum_nonneg fun x hx => h x (List.drop_subset i V (List.take_subset _ _ hx))
  linarith

/-- The deaths loop produces one entry per day of the `R` series. -/
theorem deathsGo_length (cap : ℚ) (U : List ℚ) :
    ∀ (R : List ℚ) (i : ℕ) (rPrev : ℚ) (dPrev : ℤ),
      (deathsGo cap U i rPrev dPrev R).length = R.length := by
  intro R
  induction R with
  | nil => intro i rPrev dPrev; rfl
  | cons r rs ih => intro i rPrev dPrev; simp only [deathsGo, List.length_cons, ih]

/-- Entry `i` of the deaths loop satisfies the truncated recurrence: it is
the previous entry (the accumulator for `i = 0`) plus the selected fatality
rate times the day's increment of `R`, truncated toward zero. -/
theorem deathsGo_getD (cap : ℚ) (U : List ℚ) :
    ∀ (R : List ℚ) (k : ℕ) (rPrev : ℚ) (dPrev : ℤ) (i : ℕ), i < R.length →
      (deathsGo cap U k rPrev dPrev R).getD i 0 =
        ratTrunc
          ((((if i = 0 then dPrev else (deathsGo cap U k rPrev dPrev R).getD (i - 1) 0) : ℤ) : ℚ) +
            (if U.getD (k + i) 0 ≤ cap then infectionFatalityRateA else infectionFatalityRateB) *
              (R.getD i 0 - (if i = 0 then rPrev else R.getD (i - 1) 0))) := by
  intro R
  induction R with
  | nil => intro k rPrev dPrev i hi; simp at hi
  | cons r rs ih =>
      intro k rPrev dPrev i hi
      cases i with
      | zero => simp [deathsGo]
      | succ i =>
          have hi2 : i < rs.length := by simpa using hi
          have step := ih (k + 1) r
            (ratTrunc ((dPrev : ℚ) +
              (if U.getD k 0 ≤ cap then infectionFatalityRateA else infectionFatalityRateB) *
                (r - rPrev))) i hi2
          cases i with
          | zero =>
              simpa [deathsGo, Nat.add_comm] using step
          | succ m =>
              simpa [deathsGo, Nat.add_comm, Nat.add_left_comm, Nat.succ_sub_one] using step

/-- Truncation of a value in `[0, 1)` toward zero gives zero. -/
theorem ratTrunc_eq_zero {q : ℚ} (h0 : 0 ≤ q) (h1 : q < 1) : ratTrunc q = 0 := by
  simp only [ratTrunc, if_pos h0]
  rw [Int.floor_eq_iff]
  constructor <;> push_cast <;> linarith

/-- Truncating toward zero moves a value by strictly less than one. -/
theorem ratTrunc_sub_abs_lt (q : ℚ) : |((ratTrunc q : ℤ) : ℚ) - q| < 1 := by
  by_cases h : 0 ≤ q
  · simp only [ratTrunc, if_pos h]
    have h1 := Int.floor_le q
    have h2 := Int.lt_floor_add_one q
    rw [abs_lt]
    constructor <;> linarith
  · simp only [ratTrunc, if_neg h]
    have h1 := Int.le_ceil q
    have h2 := Int.ceil_lt_add_one q
    rw [abs_lt]
    constructor <;> linarith

/-- Truncation toward zero never increases the absolute value. -/
theorem abs_ratTrunc_le (q : ℚ) : |((ratTrunc q : ℤ) : ℚ)| ≤ |q| := by
  by_cases h : 0 ≤ q
  · simp only [ratTrunc, if_pos h]
    rw [abs_of_nonneg h, abs_of_nonneg (by exact_mod_cast Int.floor_nonneg.mpr h)]
    exact Int.floor_le q
  · push_neg at h
    simp only [ratTrunc, if_neg (not_le.mpr h)]
    have hc : (⌈q⌉ : ℤ) ≤ 0 := Int.ceil_le.mpr (by exact_mod_cast le_of_lt h)
    rw [abs_of_nonpos (le_of_lt h), abs_of_nonpos (by exact_mod_cast hc)]
    exact neg_le_neg (Int.le_ceil q)

/-- C6: the detected-cases series is the infectious series scaled by
`percent_cases_detected` and then delayed by exactly the sum of the
presymptomatic, symptom-to-hospital, test and communication lags; with the
source's constants that sum is `12.5` days. -/
theorem detected_cases_matches_spec :
    (∀ I : List ℚ,
        Fseries I =
          delay (I.map (fun v => v * percent_cases_detected))
            (days_presymptomatic + symptomToHospitalLag + testLag + communicationLag)) ∧
    days_presymptomatic + symptomToHospitalLag + testLag + communicationLag = 25 / 2 :=
  ⟨fun _ => rfl,
   by norm_num [days_presymptomatic, symptomToHospitalLag, testLag, communicationLag]⟩

/-- C7: the ICU-load series is the infectious series scaled by
`icuRate · timeInHospital / timeInfected`, delayed by the sum of the
presymptomatic, symptom-to-hospital and hospital-to-ICU lags (`12.5` days
with the source's constants), and then further delayed by the correction
`round((timeInHospital / timeInfected − 1) · timeInfected)`, which evaluates
to `8` days. -/
theorem icu_load_matches_spec :
    (∀ I : List ℚ,
        Useries I =
          delay
            (delay (I.map (fun v => v * icuRate * timeInHospital / timeInfected))
              (days_presymptomatic + symptomToHospitalLag + hospitalToIcuLag))
            ((pyRound ((timeInHospital / timeInfected - 1) * timeInfected) : ℚ))) ∧
    days_presymptomatic + symptomToHospitalLag + hospitalToIcuLag = 25 / 2 ∧
    pyRound ((timeInHospital / timeInfected - 1) * timeInfected) = 8 := by
  refine ⟨fun _ => rfl,
    by norm_num [days_presymptomatic, symptomToHospitalLag, hospitalToIcuLag], ?_⟩
  have harg : (timeInHospital / timeInfected - 1) * timeInfected = 41 / 5 := by
    norm_num [timeInHospital, timeInfected, gamma, generation_time, sigma,
      days_to_incubation, days_presymptomatic]
  have hfl : ⌊(41 / 5 : ℚ)⌋ = 8 := by
    rw [Int.floor_eq_iff]
    constructor <;> push_cast <;> norm_num
  rw [harg]
  simp only [pyRound, hfl]
  norm_num

/-- C8: entry `i` of the cumulated-cases series is the running sum of the
detected-cases series over days `0..i`; when every detected value is
non-negative the cumulated series is non-decreasing. -/
theorem cumulative_cases_spec :
    (∀ (I : List ℚ) (i : ℕ), i < I.length →
        (FCseries I).getD i 0 = ((Fseries I).take (i + 1)).sum) ∧
    (∀ I : List ℚ, (∀ v ∈ Fseries I, 0 ≤ v) → ∀ i j : ℕ, i ≤ j → j < I.length →
        (FCseries I).getD i 0 ≤ (FCseries I).getD j 0) := by
  have hlen : ∀ I : List ℚ, (Fseries I).length = I.length := by
    intro I
    simp [Fseries, delay_length, F0]
  constructor
  · intro I i hi
    have hi2 : i < (Fseries I).length := by rw [hlen]; exact hi
    simpa only [FCseries] using cumsum_getD (Fseries I) i hi2
  · intro I hF i j hij hj
    have hjF : j < (Fseries I).length := by rw [hlen]; exact hj
    have hiF : i < (Fseries I).length := lt_of_le_of_lt hij hjF
    simp only [FCseries]
    rw [cumsum_getD _ i hiF, cumsum_getD _ j hjF]
    exact take_sum_mono (Fseries I) hF (by omega)

/-- Witness for C8: the cumulated series over a concrete two-day detected
series. -/
theorem cumulative_cases_spec_witness :
    (FCseries [1, 2]).getD 1 0 = ((Fseries [1, 2]).take (1 + 1)).sum :=
  cumulative_cases_spec.1 [1, 2] 1 (by decide)

/-- C9: the summary scalars are derived exactly as the spec states: `sigma`
from the incubation and presymptomatic durations (so `1/sigma = 2.7`),
`gamma` from the generation time `4.6` and `1/sigma`, `beta0 = r0·gamma`,
`beta1 = r1·gamma`, and `doublingTime = ln 2 / s1` with `s1` the stated
quadratic-root expression. -/
theorem summary_scalars_spec :
    sigma = 1 / (days_to_incubation - days_presymptomatic) ∧
    1 / sigma = 27 / 10 ∧
    gamma = 1 / (2 * (generation_time - 1 / sigma)) ∧
    generation_time = 23 / 5 ∧
    beta0 = r0 * gamma ∧
    beta1 = r1 * gamma ∧
    doublingTime = Real.log 2 / s1 ∧
    s1 = (1 / 2) * (-((sigma : ℝ) + (gamma : ℝ)) +
      Real.sqrt (((sigma : ℝ) + (gamma : ℝ)) ^ 2 +
        4 * (sigma : ℝ) * (gamma : ℝ) * ((r0 : ℝ) - 1))) := by
  refine ⟨rfl, ?_, rfl, rfl, rfl, rfl, rfl, rfl⟩
  norm_num [sigma, days_to_incubation, days_presymptomatic]

/-- Reading any entry of the all-zero one-day series gives zero. -/
theorem getD_zero_singleton : ∀ k : ℕ, ([(0 : ℚ)] : List ℚ).getD k 0 = 0 := by
  intro k
  cases k with
  | zero => rfl
  | succ k => rfl

/-- Sampling the all-zero one-day series gives zero at every integer index. -/
theorem sampleZ_zero_singleton (j : ℤ) : sampleZ [(0 : ℚ)] j = 0 := by
  by_cases h : 0 ≤ j
  · simp only [sampleZ, if_pos h, getD_zero_singleton]
  · simp only [sampleZ, if_neg h]

/-- Interpolating the all-zero one-day series gives zero everywhere. -/
theorem interp_zero_singleton (x : ℚ) : interp [(0 : ℚ)] x = 0 := by
  simp [interp, sampleZ_zero_singleton]

/-- The ICU series of a one-day trajectory with no infectious people is the
all-zero one-day series. -/
theorem Useries_zero_singleton : Useries [(0 : ℚ)] = [0] := by
  simp [Useries, U0, delay, List.range_succ, interp_zero_singleton]

/-- C1 as stated is false: on a one-day trajectory with no infectious people
(ICU load `0`, below capacity) and recovered increment `1/2`, the claimed
exact recurrence demands `Deaths[0] = infectionFatalityRateA · 1/2 = 1/200`,
but the code stores the truncated value `0` in the integer deaths array. -/
theorem deaths_exact_recurrence_counterexample :
    ((deathsLoop intensive_units (Useries [0]) [(1 : ℚ) / 2]).getD 0 0 : ℚ) ≠
      infectionFatalityRateA * ((1 : ℚ) / 2 - 0) := by
  have hL : deathsLoop intensive_units (Useries [0]) [(1 : ℚ) / 2] = [0] := by
    rw [Useries_zero_singleton]
    show [ratTrunc (((0 : ℤ) : ℚ) +
      (if ([(0 : ℚ)] : List ℚ).getD 0 0 ≤ intensive_units then infectionFatalityRateA
        else infectionFatalityRateB) * ((1 : ℚ) / 2 - 0))] = [0]
    have hcond : ([(0 : ℚ)] : List ℚ).getD 0 0 ≤ intensive_units := by
      norm_num [intensive_units]
    rw [if_pos hcond,
      ratTrunc_eq_zero (by norm_num [infectionFatalityRateA])
        (by norm_num [infectionFatalityRateA])]
  rw [hL]
  norm_num [infectionFatalityRateA]

/-- C1 amended: the deaths pipeline satisfies the recurrence with the
right-hand side truncated toward zero to an integer each day (the deaths
array has integer dtype); the fatality rate on day `i` is the ICU-available
rate exactly when the delayed ICU series is at most the capacity at `i`; the
resulting series is delayed by
`−timeInfected + days_presymptomatic + symptomToHospitalLag + timeInHospital
+ communicationLag = 17.7` days. -/
theorem deaths_pipeline_spec :
    (∀ (I R : List ℚ),
        Dseries I R =
          delay ((deathsLoop intensive_units (Useries I) R).map (fun z => (z : ℚ)))
            (- timeInfected + days_presymptomatic + symptomToHospitalLag + timeInHospital +
              communicationLag)) ∧
    (∀ (I R : List ℚ) (i : ℕ), i < R.length →
        (deathsLoop intensive_units (Useries I) R).getD i 0 =
          ratTrunc
            ((((if i = 0 then 0
                else (deathsLoop intensive_units (Useries I) R).getD (i - 1) 0) : ℤ) : ℚ) +
              (if (Useries I).getD i 0 ≤ intensive_units then infectionFatalityRateA
                else infectionFatalityRateB) *
                (R.getD i 0 - (if i = 0 then 0 else R.getD (i - 1) 0)))) ∧
    - timeInfected + days_presymptomatic + symptomToHospitalLag + timeInHospital +
        communicationLag = 177 / 10 := by
  refine ⟨fun I R => rfl, ?_, ?_⟩
  · intro I R i hi
    simpa only [deathsLoop, Nat.zero_add] using
      deathsGo_getD intensive_units (Useries I) R 0 0 0 i hi
  · norm_num [timeInfected, gamma, generation_time, sigma, days_to_incubation,
      days_presymptomatic, symptomToHospitalLag, timeInHospital, communicationLag]

/-- Witness for the amended C1: on day 0 of a one-day trajectory with no
infectious people (ICU load 0, below capacity) and recovered increment `1/2`,
the stored death count is the truncation of `1/200`, that is `0`. -/
theorem deaths_pipeline_spec_witness :
    (deathsLoop intensive_units (Useries [0]) [(1 : ℚ) / 2]).getD 0 0 = 0 := by
  have h := deaths_pipeline_spec.2.1 [0] [(1 : ℚ) / 2] 0 (by decide)
  rw [h]
  have hU : (Useries [(0 : ℚ)]).getD 0 0 = 0 := by
    rw [Useries_zero_singleton]
    rfl
  rw [hU]
  have hcond : (0 : ℚ) ≤ intensive_units := by norm_num [intensive_units]
  rw [if_pos hcond]
  simp only [if_pos rfl, Int.cast_zero, List.getD_cons_zero, zero_add, sub_zero]
  exact ratTrunc_eq_zero (by norm_num [infectionFatalityRateA])
    (by norm_num [infectionFatalityRateA])

/-- C10: every entry of the deaths loop is the integer truncation toward zero
of the exact increment applied to the previous (already truncated) entry; the
per-day truncation error is strictly below one, and truncation toward zero
never increases the absolute value. -/
theorem deaths_integer_truncation :
    (∀ (cap : ℚ) (U R : List ℚ) (i : ℕ), i < R.length →
        (deathsLoop cap U R).getD i 0 =
          ratTrunc
            ((((if i = 0 then 0 else (deathsLoop cap U R).getD (i - 1) 0) : ℤ) : ℚ) +
              (if U.getD i 0 ≤ cap then infectionFatalityRateA else infectionFatalityRateB) *
                (R.getD i 0 - (if i = 0 then 0 else R.getD (i - 1) 0)))) ∧
    (∀ (cap : ℚ) (U R : List ℚ) (i : ℕ), i < R.length →
        |((deathsLoop cap U R).getD i 0 : ℚ) -
            ((((if i = 0 then 0 else (deathsLoop cap U R).getD (i - 1) 0) : ℤ) : ℚ) +
              (if U.getD i 0 ≤ cap then infectionFatalityRateA else infectionFatalityRateB) *
                (R.getD i 0 - (if i = 0 then 0 else R.getD (i - 1) 0)))| < 1) ∧
    (∀ q : ℚ, |((ratTrunc q : ℤ) : ℚ)| ≤ |q|) := by
  have hrec : ∀ (cap : ℚ) (U R : List ℚ) (i : ℕ), i < R.length →
      (deathsLoop cap U R).getD i 0 =
        ratTrunc
          ((((if i = 0 then 0 else (deathsLoop cap U R).getD (i - 1) 0) : ℤ) : ℚ) +
            (if U.getD i 0 ≤ cap then infectionFatalityRateA else infectionFatalityRateB) *
              (R.getD i 0 - (if i = 0 then 0 else R.getD (i - 1) 0))) := by
    intro cap U R i hi
    simpa only [deathsLoop, Nat.zero_add] using deathsGo_getD cap U R 0 0 0 i hi
  refine ⟨hrec, ?_, fun q => abs_ratTrunc_le q⟩
  intro cap U R i hi
  rw [hrec cap U R i hi]
  exact ratTrunc_sub_abs_lt _

/-- Witness for C10: a one-day loop with capacity 1 and ICU load 5 (above
capacity) stores a value within one of the exact increment `3/100 · 3/2`. -/
theorem deaths_integer_truncation_witness :
    |((deathsLoop 1 [(5 : ℚ)] [(3 : ℚ) / 2]).getD 0 0 : ℚ) -
        ((((if (0 : ℕ) = 0 then 0 else (deathsLoop 1 [(5 : ℚ)] [(3 : ℚ) / 2]).getD (0 - 1) 0) :
            ℤ) : ℚ) +
          (if ([(5 : ℚ)] : List ℚ).getD 0 0 ≤ 1 then infectionFatalityRateA
            else infectionFatalityRateB) *
            (([(3 : ℚ) / 2] : List ℚ).getD 0 0 -
              (if (0 : ℕ) = 0 then 0 else ([(3 : ℚ) / 2] : List ℚ).getD (0 - 1) 0)))| < 1 :=
  deaths_integer_truncation.2.1 1 [(5 : ℚ)] [(3 : ℚ) / 2] 0 (by decide)

end CoronaSEIR
